import Mathlib

/-!
Verification of the Gigatron TTL emulator core (C sources) against its
natural-language specification.  The C data structures and functions are
shallowly embedded: machine integers become Nat with explicit masking or
modulus where the C code truncates, byte arrays become total functions
from Nat to Nat updated pointwise, nullable pointers become Option.
-/

namespace Gigatron

/-- Pointwise update of a memory modelled as a function. -/
def upd (f : Nat → Nat) (i v : Nat) : Nat → Nat :=
  fun j => if j = i then v else f j

/-- Bitwise complement of the low byte: the C expression on a uint8 operand
promotes to int, applies tilde, and the later bitwise and with a byte keeps
only the low 8 bits. -/
def not8 (n : Nat) : Nat := (n % 256) ^^^ 255

/-- Two's complement negation truncated to a byte, the C expression
(-x) & 0xFF on a uint8 value. -/
def neg8 (n : Nat) : Nat := (256 - n % 256) % 256

/-- Byte subtraction with wraparound, the C expression (a - b) & 0xFF after
integer promotion. -/
def sub8 (a b : Nat) : Nat := (((a : Int) - (b : Int)) % 256).toNat

/-- CPU state, field for field the C struct gigatron_t.  The rom pointer is
an Option: none models a NULL rom (never allocated or already freed). -/
structure gigatron_t where
  hz : Nat
  rom : Option (Nat → Nat)
  rom_size : Nat
  rom_mask : Nat
  ram : Nat → Nat
  ram_size : Nat
  ram_mask : Nat
  pc : Nat
  next_pc : Nat
  ac : Nat
  x : Nat
  y : Nat
  out : Nat
  outx : Nat
  in_reg : Nat
  ctrl : Nat
  bank : Nat
  prev_ctrl : Int
  miso : Nat
  cycles : Nat

/-- Field op of the instruction word, macro INST_OP. -/
def inst_op (ir : Nat) : Nat := (ir >>> 13) &&& 7

/-- Field mode of the instruction word, macro INST_MODE. -/
def inst_mode (ir : Nat) : Nat := (ir >>> 10) &&& 7

/-- Field bus of the instruction word, macro INST_BUS. -/
def inst_bus (ir : Nat) : Nat := (ir >>> 8) &&& 3

/-- Field d of the instruction word, macro INST_D. -/
def inst_d (ir : Nat) : Nat := ir &&& 0xFF

/-- calc_addr from gigatron.c: RAM address for an addressing mode; mode 7
has the X post-increment side effect, so the updated state is returned. -/
def calc_addr (cpu : gigatron_t) (mode d : Nat) : Nat × gigatron_t :=
  match mode with
  | 0 | 4 | 5 | 6 => (d, cpu)
  | 1 => (cpu.x, cpu)
  | 2 => ((cpu.y <<< 8) ||| d, cpu)
  | 3 => ((cpu.y <<< 8) ||| cpu.x, cpu)
  | 7 => ((cpu.y <<< 8) ||| cpu.x, { cpu with x := (cpu.x + 1) % 256 })
  | _ => (d, cpu)

/-- calc_offset from gigatron.c: branch offset for a bus source. -/
def calc_offset (cpu : gigatron_t) (bus d : Nat) : Nat :=
  match bus with
  | 0 => d
  | 1 => cpu.ram (d &&& cpu.ram_mask)
  | 2 => cpu.ac
  | 3 => cpu.in_reg
  | _ => d

/-- translate_ram_addr from gigatron.c: bank translation for the 128K
expansion, XOR with bank when bit 15 is set, then mask. -/
def translate_ram_addr (cpu : gigatron_t) (addr : Nat) : Nat :=
  (if addr &&& 0x8000 ≠ 0 then addr ^^^ cpu.bank else addr) &&& cpu.ram_mask

/-- The bus-value switch at the head of exec_alu_op: the operand byte read
from the selected bus source, together with the state (the RAM case may
post-increment X through calc_addr, and reads MISO instead of memory when
CTRL bit 0 is set). -/
def alu_operand (cpu : gigatron_t) (mode bus d : Nat) : Nat × gigatron_t :=
  match bus with
  | 0 => (d, cpu)
  | 1 =>
      let q := calc_addr cpu mode d
      if q.2.ctrl &&& 1 ≠ 0 then (q.2.miso, q.2)
      else (q.2.ram (translate_ram_addr q.2 q.1), q.2)
  | 2 => (cpu.ac, cpu)
  | 3 => (cpu.in_reg, cpu)
  | _ => (d, cpu)

/-- exec_alu_op from gigatron.c: opcodes 0 to 5. -/
def exec_alu_op (cpu : gigatron_t) (op mode bus d : Nat) : gigatron_t :=
  let p := alu_operand cpu mode bus d
  let b0 := p.1
  let cpu1 := p.2
  let b :=
    match op with
    | 0 => b0
    | 1 => cpu1.ac &&& b0
    | 2 => cpu1.ac ||| b0
    | 3 => cpu1.ac ^^^ b0
    | 4 => (cpu1.ac + b0) % 256
    | 5 => sub8 cpu1.ac b0
    | _ => b0
  match mode with
  | 0 | 1 | 2 | 3 => { cpu1 with ac := b }
  | 4 => { cpu1 with x := b }
  | 5 => { cpu1 with y := b }
  | 6 | 7 =>
      let rising := not8 cpu1.out &&& b
      if rising &&& 0x40 ≠ 0 then { cpu1 with out := b, outx := cpu1.ac }
      else { cpu1 with out := b }
  | _ => cpu1

/-- The bus-value switch of exec_store_op: the byte to store, the do_write
flag, and the state after the possible CTRL-register redirection. -/
def store_value (cpu1 : gigatron_t) (addr bus d : Nat) : Nat × Bool × gigatron_t :=
  match bus with
  | 0 => (d, true, cpu1)
  | 1 =>
      if 65536 < cpu1.ram_size then
        let ctrl2 := addr &&& 0x80FD
        (0, false,
          { cpu1 with prev_ctrl := (cpu1.ctrl : Int), ctrl := ctrl2,
                      bank := ((ctrl2 &&& 0xC0) <<< 9) ^^^ 0x8000 })
      else (0, true, cpu1)
  | 2 => (cpu1.ac, true, cpu1)
  | 3 => (cpu1.in_reg, true, cpu1)
  | _ => (d, true, cpu1)

/-- exec_store_op from gigatron.c: opcode 6.  With bus source RAM and more
than 64K of RAM the store is redirected to the CTRL register. -/
def exec_store_op (cpu : gigatron_t) (mode bus d : Nat) : gigatron_t :=
  let p := calc_addr cpu mode d
  let addr := p.1
  let cpu1 := p.2
  let q := store_value cpu1 addr bus d
  let b := q.1
  let dw := q.2.1
  let cpu2 := q.2.2
  let cpu3 :=
    if dw then { cpu2 with ram := upd cpu2.ram (translate_ram_addr cpu2 addr) b }
    else cpu2
  match mode with
  | 4 => { cpu3 with x := cpu3.ac }
  | 5 => { cpu3 with y := cpu3.ac }
  | _ => cpu3

/-- The condition variable computed by the switch in exec_branch_op, as a
function of the mode and of the value ac XOR 0x80. -/
def branch_taken (mode acx : Nat) : Bool :=
  match mode with
  | 0 => true
  | 1 => 0x80 < acx
  | 2 => acx < 0x80
  | 3 => acx ≠ 0x80
  | 4 => acx = 0x80
  | 5 => 0x80 ≤ acx
  | 6 => acx ≤ 0x80
  | 7 => true
  | _ => false

/-- exec_branch_op from gigatron.c: opcode 7. -/
def exec_branch_op (cpu : gigatron_t) (mode bus d : Nat) : gigatron_t :=
  let acx := cpu.ac ^^^ 0x80
  let base := if mode = 0 then cpu.y <<< 8 else cpu.pc &&& 0xFF00
  if branch_taken mode acx then
    { cpu with next_pc := base ||| calc_offset cpu bus d }
  else cpu

/-- The body of gigatron_tick after the NULL checks and the fetch of the
instruction word ir: PREV_CTRL reset, PC and NEXT_PC update, decode,
dispatch, cycle count. -/
def gigatron_step_ir (cpu : gigatron_t) (ir : Nat) : gigatron_t :=
  let cpuA := { cpu with prev_ctrl := -1 }
  let cpuB := { cpuA with pc := cpuA.next_pc }
  let cpuC := { cpuB with next_pc := (cpuB.pc + 1) &&& cpuB.rom_mask }
  let op := inst_op ir
  let mode := inst_mode ir
  let bus := inst_bus ir
  let d := inst_d ir
  let cpuD :=
    match op with
    | 0 | 1 | 2 | 3 | 4 | 5 => exec_alu_op cpuC op mode bus d
    | 6 => exec_store_op cpuC mode bus d
    | 7 => exec_branch_op cpuC mode bus d
    | _ => cpuC
  { cpuD with cycles := cpuD.cycles + 1 }

/-- gigatron_tick from gigatron.c: returns the state unchanged when the rom
pointer is NULL, otherwise fetches rom at the pre-tick PC and executes. -/
def gigatron_tick (cpu : gigatron_t) : gigatron_t :=
  match cpu.rom with
  | none => cpu
  | some r => gigatron_step_ir cpu (r cpu.pc)

/-- gigatron_tick called through a possibly NULL cpu pointer: a NULL
pointer makes the call return with no effect at all. -/
def gigatron_tick_ptr (cpu : Option gigatron_t) : Option gigatron_t :=
  match cpu with
  | none => none
  | some c => some (gigatron_tick c)

/-- VGA reconstructor state, field for field the C struct vga_t.  The
framebuffer is a byte-indexed function. -/
structure vga_t where
  pixels : Nat → Nat
  width : Nat
  height : Nat
  row : Nat
  col : Nat
  pixel_index : Nat
  prev_out : Nat
  min_row : Nat
  max_row : Nat
  min_col : Nat
  max_col : Nat
  frame_count : Nat
  frame_complete : Bool

/-- vga_color_to_rgba from vga.h: expand a 6-bit RRGGBB color into three
8-bit channels by replicating each 2-bit field. -/
def vga_color_to_rgba (color : Nat) : Nat × Nat × Nat :=
  let r2 := (color >>> 4) &&& 3
  let g2 := (color >>> 2) &&& 3
  let b2 := color &&& 3
  ((r2 <<< 6) ||| (r2 <<< 4) ||| (r2 <<< 2) ||| r2,
   (g2 <<< 6) ||| (g2 <<< 4) ||| (g2 <<< 2) ||| g2,
   (b2 <<< 6) ||| (b2 <<< 4) ||| (b2 <<< 2) ||| b2)

/-- One pixels store through a post-incremented uint32 index. -/
def put_byte (p : Nat → Nat) (idx v : Nat) : (Nat → Nat) × Nat :=
  (upd p idx v, (idx + 1) % 4294967296)

/-- One iteration of the store loop in vga_tick: four byte stores R, G, B,
alpha at the running index. -/
def put_rgba (p : Nat → Nat) (idx r g b : Nat) : (Nat → Nat) × Nat :=
  let s1 := put_byte p idx r
  let s2 := put_byte s1.1 s1.2 g
  let s3 := put_byte s2.1 s2.2 b
  put_byte s3.1 s3.2 255

/-- vga_tick from vga.c, with the observed OUT byte passed as an argument
in place of the cpu pointer dereference.  Row, col are uint16 and the
counters uint32, hence the explicit wraparound. -/
def vga_tick (vga : vga_t) (out : Nat) : vga_t :=
  let falling := vga.prev_out &&& not8 out
  let v1 :=
    if falling &&& 0x80 ≠ 0 then
      { vga with row := 0, pixel_index := 0, frame_complete := true,
                 frame_count := (vga.frame_count + 1) % 4294967296 }
    else vga
  let v2 :=
    if falling &&& 0x40 ≠ 0 then { v1 with col := 0, row := (v1.row + 1) % 65536 }
    else v1
  let v3 := { v2 with prev_out := out }
  if out &&& 0xC0 ≠ 0xC0 then v3
  else
    let v4 :=
      if v3.min_row ≤ v3.row ∧ v3.row < v3.max_row ∧
         v3.min_col ≤ v3.col ∧ v3.col < v3.max_col then
        let c := vga_color_to_rgba (out &&& 0x3F)
        let w1 := put_rgba v3.pixels v3.pixel_index c.1 c.2.1 c.2.2
        let w2 := put_rgba w1.1 w1.2 c.1 c.2.1 c.2.2
        let w3 := put_rgba w2.1 w2.2 c.1 c.2.1 c.2.2
        let w4 := put_rgba w3.1 w3.2 c.1 c.2.1 c.2.2
        { v3 with pixels := w4.1, pixel_index := w4.2 }
      else v3
    { v4 with col := (v4.col + 4) % 65536 }

/-- The integer accounting of audio_tick from audio.c: the uint32 cycle
counter gains sample_rate, and when it reaches hz it loses hz and one
sample is produced (the float sample pipeline does not influence whether a
sample is produced, so only the emission event is modelled). -/
def audio_tick_counter (counter sample_rate hz : Nat) : Nat × Bool :=
  let c := (counter + sample_rate) % 4294967296
  if hz ≤ c then (c - hz, true) else (c, false)

/-- Iterated audio_tick_counter: final counter and number of samples
produced over t consecutive ticks. -/
def audio_run (counter sample_rate hz : Nat) : Nat → Nat × Nat
  | 0 => (counter, 0)
  | t + 1 =>
      let s := audio_tick_counter counter sample_rate hz
      let rest := audio_run s.1 sample_rate hz t
      (rest.1, (if s.2 then 1 else 0) + rest.2)

/-- Frame sub-states of the loader, enum frame_state_t from loader.h. -/
inductive frame_state_t where
  | FRAME_WAIT_VSYNC_NEG
  | FRAME_WAIT_HSYNC_1
  | FRAME_WAIT_HSYNC_2
  | FRAME_SEND_FIRST_BYTE
  | FRAME_SEND_LENGTH
  | FRAME_SEND_ADDR_LOW
  | FRAME_SEND_ADDR_HIGH
  | FRAME_SEND_PAYLOAD
  | FRAME_SEND_CHECKSUM
  | FRAME_DONE
deriving DecidableEq

/-- The fields of loader_t used by the frame sub-state machine
process_frame, plus the cpu IN register written through shift_bit.  The
60-byte payload array is a byte-indexed function. -/
structure loader_frame_t where
  frame_state : frame_state_t
  frame_first_byte : Nat
  frame_length : Nat
  frame_addr : Nat
  frame_payload : Nat → Nat
  current_byte : Nat
  bits_remaining : Nat
  payload_index : Nat
  checksum : Nat
  in_reg : Nat

/-- shift_bit from loader.c: shift one bit into the IN register, MSB
first. -/
def shift_bit (st : loader_frame_t) (bit : Bool) : loader_frame_t :=
  { st with in_reg := ((st.in_reg <<< 1) &&& 0xFF) ||| (if bit then 1 else 0) }

/-- The statement triple repeated in every send state of process_frame:
shift the MSB of current_byte, double current_byte (uint8), decrement
bits_remaining. -/
def shift_step (st : loader_frame_t) : loader_frame_t :=
  let st1 := shift_bit st (st.current_byte &&& 0x80 ≠ 0)
  { st1 with current_byte := (st1.current_byte <<< 1) % 256,
             bits_remaining := st1.bits_remaining - 1 }

/-- The statement block that loads a fresh value into current_byte with n
bits to send and immediately shifts the first bit, as done at every state
transition of process_frame. -/
def start_bits (st : loader_frame_t) (v n : Nat) : loader_frame_t :=
  shift_step { st with current_byte := v % 256, bits_remaining := n }

/-- process_frame from loader.c, with the two edge predicates
vsync_negedge and hsync_posedge passed as booleans (they are functions of
loader prev_out and cpu OUT only).  Returns the new state and the frame
completion flag. -/
def process_frame (st : loader_frame_t) (vneg hpos : Bool) :
    loader_frame_t × Bool :=
  match st.frame_state with
  | .FRAME_WAIT_VSYNC_NEG =>
      (if vneg then { st with frame_state := .FRAME_WAIT_HSYNC_1 } else st, false)
  | .FRAME_WAIT_HSYNC_1 =>
      (if hpos then { st with frame_state := .FRAME_WAIT_HSYNC_2 } else st, false)
  | .FRAME_WAIT_HSYNC_2 =>
      if hpos then
        let st1 := { st with checksum := (st.checksum + st.frame_first_byte) % 256 }
        let st2 := start_bits st1 st1.frame_first_byte 8
        ({ st2 with frame_state := .FRAME_SEND_FIRST_BYTE }, false)
      else (st, false)
  | .FRAME_SEND_FIRST_BYTE =>
      if hpos then
        if 0 < st.bits_remaining then (shift_step st, false)
        else
          let st1 := { st with checksum := (st.checksum + (st.frame_first_byte <<< 6)) % 256 }
          let st2 := { st1 with checksum := (st1.checksum + st1.frame_length) % 256 }
          let st3 := start_bits st2 (st2.frame_length <<< 2) 6
          ({ st3 with frame_state := .FRAME_SEND_LENGTH }, false)
      else (st, false)
  | .FRAME_SEND_LENGTH =>
      if hpos then
        if 0 < st.bits_remaining then (shift_step st, false)
        else
          let alo := st.frame_addr &&& 0xFF
          let st1 := { st with checksum := (st.checksum + alo) % 256 }
          let st2 := start_bits st1 alo 8
          ({ st2 with frame_state := .FRAME_SEND_ADDR_LOW }, false)
      else (st, false)
  | .FRAME_SEND_ADDR_LOW =>
      if hpos then
        if 0 < st.bits_remaining then (shift_step st, false)
        else
          let ahi := (st.frame_addr >>> 8) &&& 0xFF
          let st1 := { st with checksum := (st.checksum + ahi) % 256 }
          let st2 := start_bits st1 ahi 8
          ({ st2 with frame_state := .FRAME_SEND_ADDR_HIGH }, false)
      else (st, false)
  | .FRAME_SEND_ADDR_HIGH =>
      if hpos then
        if 0 < st.bits_remaining then (shift_step st, false)
        else
          let st1 := { st with payload_index := 0 }
          let byte := st1.frame_payload 0
          let st2 := { st1 with checksum := (st1.checksum + byte) % 256 }
          let st3 := start_bits st2 byte 8
          ({ st3 with frame_state := .FRAME_SEND_PAYLOAD }, false)
      else (st, false)
  | .FRAME_SEND_PAYLOAD =>
      if hpos then
        if 0 < st.bits_remaining then (shift_step st, false)
        else
          let st1 := { st with payload_index := (st.payload_index + 1) % 256 }
          if 60 ≤ st1.payload_index then
            let st2 := { st1 with checksum := neg8 st1.checksum }
            let st3 := start_bits st2 st2.checksum 8
            ({ st3 with frame_state := .FRAME_SEND_CHECKSUM }, false)
          else
            let byte := st1.frame_payload st1.payload_index
            let st2 := { st1 with checksum := (st1.checksum + byte) % 256 }
            (start_bits st2 byte 8, false)
      else (st, false)
  | .FRAME_SEND_CHECKSUM =>
      if hpos then
        if 0 < st.bits_remaining then (shift_step st, false)
        else ({ st with frame_state := .FRAME_DONE }, true)
      else (st, false)
  | .FRAME_DONE => (st, true)

/-- Iterate process_frame over a list of edge observations, each entry the
pair of a vsync_negedge and an hsync_posedge boolean. -/
def frame_run (st : loader_frame_t) : List (Bool × Bool) → loader_frame_t
  | [] => st
  | i :: rest => frame_run (process_frame st i.1 i.2).1 rest

/-- Sum of the first n payload bytes. -/
def psum (p : Nat → Nat) : Nat → Nat
  | 0 => 0
  | n + 1 => psum p n + p n

/-- The checksum value a completed frame leaves behind, per the protocol:
the byte negation of the running checksum c0 plus first byte, first byte
times 64, length, both address bytes and all 60 payload bytes. -/
def frame_checksum_target (c0 f l a : Nat) (p : Nat → Nat) : Nat :=
  neg8 (c0 + f + f * 64 + l + (a &&& 0xFF) + ((a >>> 8) &&& 0xFF) + psum p 60)

/-- Invariant of the frame sub-state machine for a frame whose fields are
f, l, a, p and whose running checksum was c0 when the first byte was about
to be sent: what the running checksum holds in every sub-state, and, once
the checksum byte is being shifted out, how many of its bits have already
reached the IN register. -/
def frame_inv (c0 f l a : Nat) (p : Nat → Nat) (st : loader_frame_t) : Prop :=
  st.frame_first_byte = f ∧ st.frame_length = l ∧ st.frame_addr = a ∧
  st.frame_payload = p ∧
  match st.frame_state with
  | .FRAME_WAIT_HSYNC_2 => st.checksum = c0
  | .FRAME_SEND_FIRST_BYTE => st.checksum = (c0 + f) % 256
  | .FRAME_SEND_LENGTH => st.checksum = (c0 + f + f * 64 + l) % 256
  | .FRAME_SEND_ADDR_LOW =>
      st.checksum = (c0 + f + f * 64 + l + (a &&& 0xFF)) % 256
  | .FRAME_SEND_ADDR_HIGH =>
      st.checksum = (c0 + f + f * 64 + l + (a &&& 0xFF) + ((a >>> 8) &&& 0xFF)) % 256
  | .FRAME_SEND_PAYLOAD =>
      st.payload_index < 60 ∧
      st.checksum = (c0 + f + f * 64 + l + (a &&& 0xFF) + ((a >>> 8) &&& 0xFF) +
        psum p (st.payload_index + 1)) % 256
  | .FRAME_SEND_CHECKSUM =>
      st.checksum = frame_checksum_target c0 f l a p ∧
      st.bits_remaining ≤ 7 ∧
      st.current_byte =
        (frame_checksum_target c0 f l a p * 2 ^ (8 - st.bits_remaining)) % 256 ∧
      st.in_reg % 2 ^ (8 - st.bits_remaining) =
        frame_checksum_target c0 f l a p / 2 ^ st.bits_remaining ∧
      st.in_reg < 256
  | .FRAME_DONE =>
      st.checksum = frame_checksum_target c0 f l a p ∧
      st.in_reg = frame_checksum_target c0 f l a p
  | _ => False

/-- GT1 segment record from loader.h. -/
structure gt1_segment_t where
  address : Nat
  size : Nat
  bytes : List Nat

/-- GT1 file record from loader.h. -/
structure gt1_file_t where
  segments : List gt1_segment_t
  num_segments : Nat
  start_address : Nat
  has_start_address : Bool

/-- First pass of loader_parse_gt1: walk the segment headers, checking
that each 3-byte header and its declared payload fit in the buffer, and
count the segments; none models the free-and-return-NULL paths. -/
def gt1_count (data : List Nat) (offset : Nat) : Option Nat :=
  if _h : offset < data.length then
    if data.getD offset 0 = 0 ∧ 0 < offset then some 0
    else if data.length < offset + 3 then none
    else
      let seg0 := data.getD (offset + 2) 0
      let seg := if seg0 = 0 then 256 else seg0
      if data.length < offset + 3 + seg then none
      else (gt1_count data (offset + 3 + seg)).map (· + 1)
  else some 0
termination_by data.length - offset
decreasing_by simp_wf; omega

/-- Second pass of loader_parse_gt1: read up to k segments, returning them
together with the offset where the walk stopped. -/
def gt1_build (data : List Nat) (offset k : Nat) : List gt1_segment_t × Nat :=
  match k with
  | 0 => ([], offset)
  | k + 1 =>
      if offset < data.length then
        if data.getD offset 0 = 0 ∧ 0 < offset then ([], offset)
        else
          let addr := ((data.getD offset 0) <<< 8) ||| data.getD (offset + 1) 0
          let seg0 := data.getD (offset + 2) 0
          let seg := if seg0 = 0 then 256 else seg0
          let bytes := (data.drop (offset + 3)).take seg
          let rest := gt1_build data (offset + 3 + seg) k
          ({ address := addr, size := seg, bytes := bytes } :: rest.1, rest.2)
      else ([], offset)

/-- loader_parse_gt1 from loader.c on an in-memory byte buffer: none is
the NULL return.  Allocation failures are not modelled. -/
def loader_parse_gt1 (data : List Nat) : Option gt1_file_t :=
  if data.length < 3 then none
  else
    match gt1_count data 0 with
    | none => none
    | some n =>
        if n = 0 then none
        else
          let built := gt1_build data 0 n
          let off := built.2
          if off < data.length ∧ data.getD off 0 = 0 then
            if off + 1 + 2 ≤ data.length then
              let sa := ((data.getD (off + 1) 0) <<< 8) ||| data.getD (off + 2) 0
              some { segments := built.1, num_segments := n,
                     start_address := sa, has_start_address := sa ≠ 0 }
            else
              some { segments := built.1, num_segments := n,
                     start_address := 0, has_start_address := false }
          else
            some { segments := built.1, num_segments := n,
                   start_address := 0, has_start_address := false }

/-- The truncation predicate of the GT1 wire format: walking the declared
segments from the given offset runs off the end of the buffer, either
inside a 3-byte header or inside a declared payload. -/
def gt1_truncated (data : List Nat) (offset : Nat) : Bool :=
  if _h : offset < data.length then
    if data.getD offset 0 = 0 ∧ 0 < offset then false
    else if data.length < offset + 3 then true
    else
      let seg0 := data.getD (offset + 2) 0
      let seg := if seg0 = 0 then 256 else seg0
      if data.length < offset + 3 + seg then true
      else gt1_truncated data (offset + 3 + seg)
  else false
termination_by data.length - offset
decreasing_by simp_wf; omega

/-- The signed reading of an 8-bit register value, used to state the
branch-condition claim: values 128 to 255 denote negatives. -/
def sint8 (a : Nat) : Int := if a < 128 then (a : Int) else (a : Int) - 256

/-! ### Concrete states used to instantiate the theorems -/

/-- A CPU state as produced by gigatron_init with the default ROM width of
16 bits and the base 32K RAM, followed by gigatron_reset, with an all-zero
ROM image and all-zero RAM contents. -/
def cpu0 : gigatron_t :=
  { hz := 6250000
    rom := some (fun _ => 0)
    rom_size := 65536
    rom_mask := 65535
    ram := fun _ => 0
    ram_size := 32768
    ram_mask := 32767
    pc := 0
    next_pc := 1
    ac := 0
    x := 0
    y := 0
    out := 0
    outx := 0
    in_reg := 255
    ctrl := 0x7C
    bank := 0
    prev_ctrl := -1
    miso := 0
    cycles := 0 }

/-- The same state with no ROM allocated (NULL rom pointer). -/
def cpu_norom : gigatron_t := { cpu0 with rom := none }

/-- A state with SPI mode active (CTRL bit 0 set) and a nonzero MISO
byte over an all-zero RAM. -/
def cpu_spi : gigatron_t := { cpu0 with ctrl := 1, miso := 7 }

/-- A 128K configuration state (ram_size of 2 to the 17). -/
def cpu_big : gigatron_t :=
  { cpu0 with ram_size := 131072, ram_mask := 131071, y := 0x80, x := 0x40 }

/-- The reset state with a distinctive accumulator, for the OUTX latch. -/
def cpu_ac : gigatron_t := { cpu0 with ac := 165 }

/-- A VGA state as produced by vga_init and vga_reset over an all-zero
framebuffer: row 0 and col 0, which lie in the vertical back porch,
outside the visible window. -/
def vga0 : vga_t :=
  { pixels := fun _ => 0
    width := 640
    height := 480
    row := 0
    col := 0
    pixel_index := 0
    prev_out := 0
    min_row := 34
    max_row := 514
    min_col := 48
    max_col := 688
    frame_count := 0
    frame_complete := false }

/-- A loader frame state about to send the first byte of a sync frame
(first byte 0xFF, length 0, address 0, all-zero payload), with the running
checksum at 0, as prepared by the menu-navigation stage. -/
def frame0 : loader_frame_t :=
  { frame_state := .FRAME_WAIT_HSYNC_2
    frame_first_byte := 0xFF
    frame_length := 0
    frame_addr := 0
    frame_payload := fun _ => 0
    current_byte := 0
    bits_remaining := 0
    payload_index := 0
    checksum := 0
    in_reg := 255 }

/-! ### Preservation lemmas for the CPU execute functions -/

lemma calc_addr_keeps (cpu : gigatron_t) (mode d : Nat) :
    ((calc_addr cpu mode d).2).pc = cpu.pc ∧
    ((calc_addr cpu mode d).2).next_pc = cpu.next_pc ∧
    ((calc_addr cpu mode d).2).rom_mask = cpu.rom_mask ∧
    ((calc_addr cpu mode d).2).rom = cpu.rom ∧
    ((calc_addr cpu mode d).2).out = cpu.out ∧
    ((calc_addr cpu mode d).2).outx = cpu.outx ∧
    ((calc_addr cpu mode d).2).ac = cpu.ac ∧
    ((calc_addr cpu mode d).2).ram = cpu.ram ∧
    ((calc_addr cpu mode d).2).ram_size = cpu.ram_size ∧
    ((calc_addr cpu mode d).2).ram_mask = cpu.ram_mask ∧
    ((calc_addr cpu mode d).2).ctrl = cpu.ctrl ∧
    ((calc_addr cpu mode d).2).bank = cpu.bank ∧
    ((calc_addr cpu mode d).2).prev_ctrl = cpu.prev_ctrl ∧
    ((calc_addr cpu mode d).2).miso = cpu.miso ∧
    ((calc_addr cpu mode d).2).in_reg = cpu.in_reg ∧
    ((calc_addr cpu mode d).2).cycles = cpu.cycles := by
  unfold calc_addr
  split <;> simp

lemma alu_operand_keeps (cpu : gigatron_t) (mode bus d : Nat) :
    ((alu_operand cpu mode bus d).2).pc = cpu.pc ∧
    ((alu_operand cpu mode bus d).2).next_pc = cpu.next_pc ∧
    ((alu_operand cpu mode bus d).2).rom_mask = cpu.rom_mask ∧
    ((alu_operand cpu mode bus d).2).rom = cpu.rom ∧
    ((alu_operand cpu mode bus d).2).out = cpu.out ∧
    ((alu_operand cpu mode bus d).2).outx = cpu.outx ∧
    ((alu_operand cpu mode bus d).2).ac = cpu.ac ∧
    ((alu_operand cpu mode bus d).2).ram = cpu.ram ∧
    ((alu_operand cpu mode bus d).2).cycles = cpu.cycles := by
  obtain ⟨h1, h2, h3, h4, h5, h6, h7, h8, h9, h10, h11, h12, h13, h14, h15, h16⟩ :=
    calc_addr_keeps cpu mode d
  unfold alu_operand
  split <;> dsimp only <;> (try split) <;> simp_all

lemma exec_alu_op_keeps (cpu : gigatron_t) (op mode bus d : Nat) :
    (exec_alu_op cpu op mode bus d).pc = cpu.pc ∧
    (exec_alu_op cpu op mode bus d).next_pc = cpu.next_pc ∧
    (exec_alu_op cpu op mode bus d).rom_mask = cpu.rom_mask ∧
    (exec_alu_op cpu op mode bus d).rom = cpu.rom ∧
    (exec_alu_op cpu op mode bus d).ram = cpu.ram ∧
    (exec_alu_op cpu op mode bus d).cycles = cpu.cycles := by
  obtain ⟨h1, h2, h3, h4, h5, h6, h7, h8, h9⟩ := alu_operand_keeps cpu mode bus d
  unfold exec_alu_op
  dsimp only
  split <;> (try split) <;> simp_all

lemma store_value_keeps (cpu1 : gigatron_t) (addr bus d : Nat) :
    ((store_value cpu1 addr bus d).2.2).pc = cpu1.pc ∧
    ((store_value cpu1 addr bus d).2.2).next_pc = cpu1.next_pc ∧
    ((store_value cpu1 addr bus d).2.2).rom_mask = cpu1.rom_mask ∧
    ((store_value cpu1 addr bus d).2.2).rom = cpu1.rom ∧
    ((store_value cpu1 addr bus d).2.2).out = cpu1.out ∧
    ((store_value cpu1 addr bus d).2.2).outx = cpu1.outx ∧
    ((store_value cpu1 addr bus d).2.2).ac = cpu1.ac ∧
    ((store_value cpu1 addr bus d).2.2).x = cpu1.x ∧
    ((store_value cpu1 addr bus d).2.2).y = cpu1.y ∧
    ((store_value cpu1 addr bus d).2.2).ram = cpu1.ram ∧
    ((store_value cpu1 addr bus d).2.2).ram_mask = cpu1.ram_mask ∧
    ((store_value cpu1 addr bus d).2.2).cycles = cpu1.cycles := by
  unfold store_value
  split <;> dsimp only <;> (try split) <;> simp_all

lemma exec_store_op_keeps (cpu : gigatron_t) (mode bus d : Nat) :
    (exec_store_op cpu mode bus d).pc = cpu.pc ∧
    (exec_store_op cpu mode bus d).next_pc = cpu.next_pc ∧
    (exec_store_op cpu mode bus d).rom_mask = cpu.rom_mask ∧
    (exec_store_op cpu mode bus d).rom = cpu.rom ∧
    (exec_store_op cpu mode bus d).out = cpu.out ∧
    (exec_store_op cpu mode bus d).outx = cpu.outx ∧
    (exec_store_op cpu mode bus d).cycles = cpu.cycles := by
  obtain ⟨h1, h2, h3, h4, h5, h6, h7, h8, h9, h10, h11, h12, h13, h14, h15, h16⟩ :=
    calc_addr_keeps cpu mode d
  obtain ⟨g1, g2, g3, g4, g5, g6, g7, g8, g9, g10, g11, g12⟩ :=
    store_value_keeps (calc_addr cpu mode d).2 (calc_addr cpu mode d).1 bus d
  unfold exec_store_op
  dsimp only
  split <;> (try split) <;> simp_all

lemma exec_branch_op_eq (cpu : gigatron_t) (mode bus d : Nat) :
    exec_branch_op cpu mode bus d =
      if branch_taken mode (cpu.ac ^^^ 0x80) then
        { cpu with next_pc :=
            (if mode = 0 then cpu.y <<< 8 else cpu.pc &&& 0xFF00) |||
              calc_offset cpu bus d }
      else cpu := rfl

lemma exec_branch_op_keeps (cpu : gigatron_t) (mode bus d : Nat) :
    (exec_branch_op cpu mode bus d).pc = cpu.pc ∧
    (exec_branch_op cpu mode bus d).rom_mask = cpu.rom_mask ∧
    (exec_branch_op cpu mode bus d).rom = cpu.rom ∧
    (exec_branch_op cpu mode bus d).out = cpu.out ∧
    (exec_branch_op cpu mode bus d).outx = cpu.outx ∧
    (exec_branch_op cpu mode bus d).ram = cpu.ram ∧
    (exec_branch_op cpu mode bus d).cycles = cpu.cycles := by
  rw [exec_branch_op_eq]
  split <;> simp

lemma gigatron_step_ir_pc (cpu : gigatron_t) (ir : Nat) :
    (gigatron_step_ir cpu ir).pc = cpu.next_pc := by
  unfold gigatron_step_ir
  dsimp only
  split <;>
    first
      | exact (exec_alu_op_keeps _ _ _ _ _).1
      | exact (exec_store_op_keeps _ _ _ _).1
      | exact (exec_branch_op_keeps _ _ _ _).1
      | rfl

lemma gigatron_step_ir_next_pc (cpu : gigatron_t) (ir : Nat)
    (h : inst_op ir ≤ 6 ∨
      (inst_op ir = 7 ∧ branch_taken (inst_mode ir) (cpu.ac ^^^ 0x80) = false)) :
    (gigatron_step_ir cpu ir).next_pc =
      ((gigatron_step_ir cpu ir).pc + 1) &&& cpu.rom_mask := by
  rw [gigatron_step_ir_pc]
  unfold gigatron_step_ir
  dsimp only
  split
  any_goals exact (exec_alu_op_keeps _ _ _ _ _).2.1
  any_goals exact (exec_store_op_keeps _ _ _ _).2.1
  any_goals rfl
  rcases h with h | ⟨h7, htk⟩
  · omega
  · simp [exec_branch_op_eq, htk]

/-! ### Claim theorems for the CPU core -/

/-- C1: on every tick with an allocated ROM and an in-range PC (the only
case in which the C array read rom at pc is defined, and always the case
in the default 16-bit ROM configuration), the executed instruction is the
ROM word at index pc AND rom_mask, the post-tick PC equals the pre-tick
NEXT_PC, and for ALU ops, stores and non-taken branches the final NEXT_PC
is the post-tick PC plus one, masked. -/
theorem claim_C1_tick_fetch (cpu : gigatron_t) (r : Nat → Nat) (k : Nat)
    (hrom : cpu.rom = some r) (hmask : cpu.rom_mask = 2 ^ k - 1)
    (hpc : cpu.pc ≤ cpu.rom_mask) :
    gigatron_tick cpu = gigatron_step_ir cpu (r (cpu.pc &&& cpu.rom_mask)) ∧
    (gigatron_tick cpu).pc = cpu.next_pc ∧
    ((inst_op (r (cpu.pc &&& cpu.rom_mask)) ≤ 6 ∨
        (inst_op (r (cpu.pc &&& cpu.rom_mask)) = 7 ∧
          branch_taken (inst_mode (r (cpu.pc &&& cpu.rom_mask)))
            (cpu.ac ^^^ 0x80) = false)) →
      (gigatron_tick cpu).next_pc =
        ((gigatron_tick cpu).pc + 1) &&& cpu.rom_mask) := by
  have hp2 : 0 < 2 ^ k := pow_pos (by norm_num) k
  have hpc' : cpu.pc < 2 ^ k := by
    have := hpc
    rw [hmask] at this
    omega
  have hand : cpu.pc &&& cpu.rom_mask = cpu.pc := by
    rw [hmask, Nat.and_pow_two_sub_one_eq_mod]
    exact Nat.mod_eq_of_lt hpc'
  have htick : gigatron_tick cpu = gigatron_step_ir cpu (r (cpu.pc &&& cpu.rom_mask)) := by
    rw [hand]
    simp [gigatron_tick, hrom]
  refine ⟨htick, ?_, ?_⟩
  · rw [htick, gigatron_step_ir_pc]
  · intro hcase
    rw [htick, gigatron_step_ir_pc, ← gigatron_step_ir_pc cpu (r (cpu.pc &&& cpu.rom_mask))]
    exact gigatron_step_ir_next_pc cpu _ hcase

/-- Witness for C1 at the reset state with an all-zero ROM. -/
theorem claim_C1_tick_fetch_witness :
    (gigatron_tick cpu0).pc = 1 ∧ (gigatron_tick cpu0).next_pc = 2 := by
  have h := claim_C1_tick_fetch cpu0 (fun _ => 0) 16 rfl (by decide) (by decide)
  refine ⟨h.2.1.trans rfl, ?_⟩
  have h3 := h.2.2 (Or.inl (by decide))
  rw [h3, h.2.1]
  rfl

set_option maxRecDepth 4096 in
lemma xor128_eq : ∀ a : Nat, a < 256 →
    a ^^^ 128 = if a < 128 then a + 128 else a - 128 := by decide

/-- C2: branch semantics.  The condition is the signed comparison of AC
obtained through the XOR against 0x80; the base is the current page of the
post-fetch PC except for JMP which uses Y shifted left 8; a taken branch
sets NEXT_PC to base OR offset with the offset drawn from the bus source;
a non-taken branch leaves NEXT_PC alone.  The RAM page hypothesis (mask of
at least 8 bits) reflects the comment in calc_offset that RAM always has
at least one page. -/
theorem claim_C2_branch (cpu : gigatron_t) (mode bus d : Nat)
    (hmode : mode < 8) (hac : cpu.ac < 256) (hd : d < 256)
    (w : Nat) (hw : cpu.ram_mask = 2 ^ w - 1) (hw8 : 8 ≤ w) :
    exec_branch_op cpu mode bus d =
      if mode = 0 ∨ mode = 7 ∨
          (mode = 1 ∧ 0 < sint8 cpu.ac) ∨ (mode = 2 ∧ sint8 cpu.ac < 0) ∨
          (mode = 3 ∧ sint8 cpu.ac ≠ 0) ∨ (mode = 4 ∧ sint8 cpu.ac = 0) ∨
          (mode = 5 ∧ 0 ≤ sint8 cpu.ac) ∨ (mode = 6 ∧ sint8 cpu.ac ≤ 0) then
        { cpu with next_pc :=
            (if mode = 0 then cpu.y <<< 8 else cpu.pc &&& 0xFF00) |||
            (if bus = 0 then d
             else if bus = 1 then cpu.ram d
             else if bus = 2 then cpu.ac
             else if bus = 3 then cpu.in_reg
             else d) }
      else cpu := by
  have hxor := xor128_eq cpu.ac hac
  have hd2 : d &&& cpu.ram_mask = d := by
    rw [hw, Nat.and_pow_two_sub_one_eq_mod]
    refine Nat.mod_eq_of_lt (lt_of_lt_of_le hd ?_)
    calc (256 : Nat) = 2 ^ 8 := by norm_num
      _ ≤ 2 ^ w := Nat.pow_le_pow_right (by norm_num) hw8
  have hoff : calc_offset cpu bus d =
      (if bus = 0 then d
       else if bus = 1 then cpu.ram d
       else if bus = 2 then cpu.ac
       else if bus = 3 then cpu.in_reg
       else d) := by
    unfold calc_offset
    rcases bus with _ | _ | _ | _ | b <;> simp [hd2]
  have hcond : (branch_taken mode (cpu.ac ^^^ 0x80) = true) ↔
      (mode = 0 ∨ mode = 7 ∨
        (mode = 1 ∧ 0 < sint8 cpu.ac) ∨ (mode = 2 ∧ sint8 cpu.ac < 0) ∨
        (mode = 3 ∧ sint8 cpu.ac ≠ 0) ∨ (mode = 4 ∧ sint8 cpu.ac = 0) ∨
        (mode = 5 ∧ 0 ≤ sint8 cpu.ac) ∨ (mode = 6 ∧ sint8 cpu.ac ≤ 0)) := by
    interval_cases mode <;>
      simp only [branch_taken, hxor, sint8, decide_eq_true_eq] <;>
      simp <;> split_ifs <;> omega
  rw [exec_branch_op_eq]
  simp only [hoff, hcond]

/-- Witness for C2: a BLT with a negative AC and bus source RAM on the
reset state takes the branch to offset ram at 5, which is zero. -/
theorem claim_C2_branch_witness :
    (exec_branch_op { cpu0 with ac := 200 } 2 1 5).next_pc = 0 := by
  have h := claim_C2_branch { cpu0 with ac := 200 } 2 1 5 (by decide) (by decide)
    (by decide) 15 (by decide) (by decide)
  rw [h]
  norm_num [sint8, cpu0]

/-- C4: a store with bus source RAM.  In the extended configuration (more
than 64K of RAM) nothing is written to RAM, CTRL becomes the computed
address AND 0x80FD, BANK is recomputed from the new CTRL, and PREV_CTRL
retains the prior CTRL.  In the base configuration the byte 0 is written
to the translated decoded address. -/
theorem claim_C4_store_ctrl (cpu : gigatron_t) (mode d : Nat) :
    (65536 < cpu.ram_size →
      (exec_store_op cpu mode 1 d).ram = cpu.ram ∧
      (exec_store_op cpu mode 1 d).ctrl = (calc_addr cpu mode d).1 &&& 0x80FD ∧
      (exec_store_op cpu mode 1 d).bank =
        (((exec_store_op cpu mode 1 d).ctrl &&& 0xC0) <<< 9) ^^^ 0x8000 ∧
      (exec_store_op cpu mode 1 d).prev_ctrl = (cpu.ctrl : Int)) ∧
    (cpu.ram_size ≤ 65536 →
      (exec_store_op cpu mode 1 d).ram =
        upd cpu.ram (translate_ram_addr cpu (calc_addr cpu mode d).1) 0) := by
  obtain ⟨h1, h2, h3, h4, h5, h6, h7, h8, h9, h10, h11, h12, h13, h14, h15, h16⟩ :=
    calc_addr_keeps cpu mode d
  unfold exec_store_op store_value
  dsimp only
  constructor <;> intro hsz
  · rw [if_pos (show 65536 < (calc_addr cpu mode d).2.ram_size by omega)]
    dsimp only
    split <;> simp_all
  · rw [if_neg (show ¬ 65536 < (calc_addr cpu mode d).2.ram_size by omega)]
    dsimp only
    split <;> simp_all [translate_ram_addr]

/-- Witness for C4, both configurations: the 128K state redirects the
ST to CTRL (computed address Y:X = 0x8040, CTRL keeps 0x8040 AND 0x80FD),
the 32K reset state writes a zero byte at the decoded address. -/
theorem claim_C4_store_ctrl_witness :
    ((exec_store_op cpu_big 3 1 0).ctrl = 0x8040 ∧
      (exec_store_op cpu_big 3 1 0).ram = cpu_big.ram ∧
      (exec_store_op cpu_big 3 1 0).prev_ctrl = (0x7C : Int)) ∧
    (exec_store_op cpu0 0 1 9).ram 9 = 0 := by
  have hbig := (claim_C4_store_ctrl cpu_big 3 0).1 (by decide)
  have hbase := (claim_C4_store_ctrl cpu0 0 9).2 (by decide)
  refine ⟨⟨?_, hbig.1, ?_⟩, ?_⟩
  · rw [hbig.2.1]; rfl
  · exact hbig.2.2.2
  · rw [hbase]; rfl

/-- Counterexample to C5: with CTRL bit 0 set and MISO equal to 7 over an
all-zero RAM, the branch-offset read with bus source RAM (calc_offset)
returns the RAM byte 0, not MISO, so the claim that every RAM-bus read
returns MISO when CTRL bit 0 is set is false for the branch path. -/
theorem claim_C5_counterexample :
    cpu_spi.ctrl &&& 1 = 1 ∧ calc_offset cpu_spi 1 5 = 0 ∧
      calc_offset cpu_spi 1 5 ≠ cpu_spi.miso := by
  refine ⟨rfl, rfl, by decide⟩

/-- C5 amended: the ALU-operand RAM read (here observed end to end through
an LD into AC) returns MISO when CTRL bit 0 is set and the translated
masked RAM byte otherwise; the branch-offset RAM read always returns the
RAM byte at d AND ram_mask, ignoring CTRL and MISO. -/
theorem claim_C5_ram_read (cpu : gigatron_t) (mode d : Nat) (hmode : mode < 4) :
    ((exec_alu_op cpu 0 mode 1 d).ac =
      if cpu.ctrl &&& 1 ≠ 0 then cpu.miso
      else cpu.ram (translate_ram_addr cpu (calc_addr cpu mode d).1)) ∧
    calc_offset cpu 1 d = cpu.ram (d &&& cpu.ram_mask) := by
  refine ⟨?_, rfl⟩
  interval_cases mode <;>
    (unfold exec_alu_op alu_operand calc_addr; dsimp only; split_ifs <;> simp)

/-- Witness for C5 amended: on the SPI state the LD through the RAM bus
yields MISO equal to 7. -/
theorem claim_C5_ram_read_witness :
    (exec_alu_op cpu_spi 0 0 1 5).ac = 7 ∧
      calc_offset cpu_spi 1 5 = cpu_spi.ram (5 &&& cpu_spi.ram_mask) := by
  have h := claim_C5_ram_read cpu_spi 0 5 (by decide)
  refine ⟨?_, h.2⟩
  rw [h.1]
  decide

lemma exec_alu_op_outx_char (cpu : gigatron_t) (op mode bus d : Nat) :
    (exec_alu_op cpu op mode bus d).outx ≠ cpu.outx →
      (mode = 6 ∨ mode = 7) ∧
      (not8 cpu.out &&& (exec_alu_op cpu op mode bus d).out) &&& 0x40 ≠ 0 ∧
      (exec_alu_op cpu op mode bus d).outx = cpu.ac := by
  obtain ⟨k1, k2, k3, k4, k5, k6, k7, k8, k9⟩ := alu_operand_keeps cpu mode bus d
  unfold exec_alu_op
  dsimp only
  split <;> (try split) <;> intro hne <;> simp_all

/-- C6: OUTX changes only during an ALU instruction whose mode writes OUT
(D_OUT or YX_INC) and whose result raises bit 6 of OUT, in which case the
latched value is the pre-instruction AC; store and branch instructions
modify neither OUT nor OUTX. -/
theorem claim_C6_outx_latch (cpu : gigatron_t) (ir : Nat) :
    ((inst_op ir = 6 ∨ inst_op ir = 7) →
      (gigatron_step_ir cpu ir).out = cpu.out ∧
      (gigatron_step_ir cpu ir).outx = cpu.outx) ∧
    (inst_op ir ≤ 5 →
      (gigatron_step_ir cpu ir).outx ≠ cpu.outx →
        (inst_mode ir = 6 ∨ inst_mode ir = 7) ∧
        (not8 cpu.out &&& (gigatron_step_ir cpu ir).out) &&& 0x40 ≠ 0 ∧
        (gigatron_step_ir cpu ir).outx = cpu.ac) := by
  constructor
  · intro h
    unfold gigatron_step_ir
    dsimp only
    rcases h with h | h <;> simp only [h]
    · exact ⟨(exec_store_op_keeps _ _ _ _).2.2.2.2.1,
        (exec_store_op_keeps _ _ _ _).2.2.2.2.2.1⟩
    · exact ⟨(exec_branch_op_keeps _ _ _ _).2.2.2.1,
        (exec_branch_op_keeps _ _ _ _).2.2.2.2.1⟩
  · intro hle hne
    unfold gigatron_step_ir at hne ⊢
    dsimp only at hne ⊢
    set o := inst_op ir with ho
    interval_cases o <;> exact exec_alu_op_outx_char _ _ _ _ _ hne

/-- Witness for C6: a plain store leaves OUT and OUTX unchanged, and an LD
to OUT that raises bit 6 latches AC equal to 165 into OUTX. -/
theorem claim_C6_outx_latch_witness :
    ((gigatron_step_ir cpu0 0xC000).out = cpu0.out ∧
      (gigatron_step_ir cpu0 0xC000).outx = cpu0.outx) ∧
    (gigatron_step_ir cpu_ac 6208).outx = cpu_ac.ac := by
  refine ⟨(claim_C6_outx_latch cpu0 0xC000).1 (Or.inl (by decide)), ?_⟩
  exact ((claim_C6_outx_latch cpu_ac 6208).2 (by decide) (by decide)).2.2

/-! ### VGA claims -/

set_option maxRecDepth 4096 in
lemma sync_not8 : ∀ x : Nat, x < 256 → x &&& 192 = 192 →
    ((x ^^^ 255) &&& 128 = 0 ∧ (x ^^^ 255) &&& 64 = 0) := by decide

/-- Counterexample to C7: on the reset VGA state (row 0, inside the
vertical back porch, hence invisible) a tick with both sync bits of OUT
high advances col by 4 but leaves pixel_index unchanged, not advanced
by 16. -/
theorem claim_C7_counterexample :
    (192 : Nat) &&& 0xC0 = 0xC0 ∧
    (vga_tick vga0 192).col = vga0.col + 4 ∧
    (vga_tick vga0 192).pixel_index ≠ vga0.pixel_index + 16 := by
  refine ⟨rfl, rfl, by decide⟩

/-- C7 amended: on a tick whose OUT has both sync bits high, col always
advances by 4 (mod 2 to the 16), while pixel_index advances by 16 exactly
when the current row and col lie inside the visible window, and is
unchanged otherwise. -/
theorem claim_C7_vga_advance (vga : vga_t) (out : Nat) (h : out &&& 0xC0 = 0xC0) :
    (vga_tick vga out).col = (vga.col + 4) % 65536 ∧
    (vga_tick vga out).pixel_index =
      (if vga.min_row ≤ vga.row ∧ vga.row < vga.max_row ∧
          vga.min_col ≤ vga.col ∧ vga.col < vga.max_col
       then (vga.pixel_index + 16) % 4294967296
       else vga.pixel_index) := by
  have h255 : out &&& 255 = out % 256 := by
    have := Nat.and_pow_two_sub_one_eq_mod out 8
    norm_num at this
    exact this
  have hmod : (out % 256) &&& 192 = 192 := by
    rw [← h255, Nat.and_assoc]
    rw [show (255 : Nat) &&& 192 = 192 from rfl]
    exact h
  have hsync := sync_not8 (out % 256) (Nat.mod_lt _ (by norm_num)) hmod
  have hz80 : vga.prev_out &&& not8 out &&& 0x80 = 0 := by
    rw [Nat.and_assoc]
    unfold not8
    rw [hsync.1, Nat.and_zero]
  have hz40 : vga.prev_out &&& not8 out &&& 0x40 = 0 := by
    rw [Nat.and_assoc]
    unfold not8
    rw [hsync.2, Nat.and_zero]
  unfold vga_tick
  simp only [hz80, hz40, h, ne_eq, not_true_eq_false, if_false]
  split_ifs <;> simp_all [put_rgba, put_byte]

/-- Witness for C7 amended: inside the visible window (row 40, col 52 on
the reset-like state) the tick advances col to 56 and pixel_index by 16. -/
theorem claim_C7_vga_advance_witness :
    (vga_tick { vga0 with row := 40, col := 52 } 192).col = 56 ∧
    (vga_tick { vga0 with row := 40, col := 52 } 192).pixel_index = 16 := by
  have h := claim_C7_vga_advance { vga0 with row := 40, col := 52 } 192 (by decide)
  refine ⟨?_, ?_⟩
  · rw [h.1]; decide
  · rw [h.2, if_pos (by decide)]; decide

/-! ### Audio resampler claims -/

lemma audio_run_invariant (s hz : Nat) (hs : s ≤ hz)
    (hno : hz + s ≤ 4294967296) :
    ∀ (t c0 : Nat), c0 < hz →
      (audio_run c0 s hz t).2 * hz + (audio_run c0 s hz t).1 = c0 + t * s ∧
      (audio_run c0 s hz t).1 < hz := by
  intro t
  induction t with
  | zero => intro c0 hc0; simpa [audio_run] using hc0
  | succ n ih =>
      intro c0 hc0
      have hmod : (c0 + s) % 4294967296 = c0 + s := Nat.mod_eq_of_lt (by omega)
      by_cases hge : hz ≤ c0 + s
      · have hstep : audio_tick_counter c0 s hz = (c0 + s - hz, true) := by
          unfold audio_tick_counter
          rw [hmod, if_pos hge]
        have hrec := ih (c0 + s - hz) (by omega)
        have hrun : audio_run c0 s hz (n + 1) =
            ((audio_run (c0 + s - hz) s hz n).1,
              1 + (audio_run (c0 + s - hz) s hz n).2) := by
          simp [audio_run, hstep]
        rw [hrun]
        dsimp only
        refine ⟨?_, hrec.2⟩
        have h1 := hrec.1
        rw [Nat.add_mul, one_mul, Nat.succ_mul]
        omega
      · have hstep : audio_tick_counter c0 s hz = (c0 + s, false) := by
          unfold audio_tick_counter
          rw [hmod, if_neg hge]
        have hrec := ih (c0 + s) (by omega)
        have hrun : audio_run c0 s hz (n + 1) =
            ((audio_run (c0 + s) s hz n).1, (audio_run (c0 + s) s hz n).2) := by
          simp [audio_run, hstep]
        rw [hrun]
        dsimp only
        refine ⟨?_, hrec.2⟩
        have h1 := hrec.1
        rw [Nat.succ_mul]
        omega

/-- Counterexample to C8: with the uint32 cycle accumulator wrapping
(sample_rate 2 to the 31, hz equal to 2 to the 31 plus 5, both legal
uint32 values with sample_rate below hz), two ticks emit no sample at all
although floor of 2 times sample_rate over hz is 1. -/
theorem claim_C8_counterexample :
    (2147483648 : Nat) ≤ 2147483653 ∧
    (audio_run 0 2147483648 2147483653 2).2 = 0 ∧
    2 * 2147483648 / 2147483653 = 1 := by
  refine ⟨by norm_num, ?_, by norm_num⟩
  norm_num [audio_run, audio_tick_counter]

/-- C8 amended: provided the accumulator cannot wrap (hz plus sample_rate
at most 2 to the 32, which holds for the stock 6.25 MHz clock and 44100 Hz
rate), starting from accumulator 0 the resampler emits exactly
floor(t times sample_rate over hz) samples over t ticks, and from any
accumulator phase below hz the count is within one of that quotient. -/
theorem claim_C8_audio_rate (s hz : Nat) (hhz : 0 < hz) (hs : s ≤ hz)
    (hno : hz + s ≤ 4294967296) (t : Nat) :
    (audio_run 0 s hz t).2 = t * s / hz ∧
    (∀ c0, c0 < hz →
      t * s / hz ≤ (audio_run c0 s hz t).2 + 1 ∧
      (audio_run c0 s hz t).2 ≤ t * s / hz + 1) := by
  constructor
  · obtain ⟨he, hlt⟩ := audio_run_invariant s hz hs hno t 0 hhz
    symm
    apply Nat.div_eq_of_lt_le
    · omega
    · rw [Nat.succ_mul]
      omega
  · intro c0 hc0
    obtain ⟨he, hlt⟩ := audio_run_invariant s hz hs hno t c0 hc0
    constructor
    · have hts : t * s ≤ ((audio_run c0 s hz t).2 + 1) * hz := by
        rw [Nat.add_mul, one_mul]
        omega
      calc t * s / hz ≤ ((audio_run c0 s hz t).2 + 1) * hz / hz :=
            Nat.div_le_div_right hts
        _ = (audio_run c0 s hz t).2 + 1 := Nat.mul_div_cancel _ hhz
    · have hk : (audio_run c0 s hz t).2 * hz ≤ t * s + hz := by omega
      have := (Nat.le_div_iff_mul_le hhz).2 hk
      rwa [Nat.add_div_right _ hhz] at this

/-- Witness for C8 amended: with sample_rate 30 and hz 100, ten ticks from
phase 0 emit exactly 3 samples, and from phase 50 at most 4. -/
theorem claim_C8_audio_rate_witness :
    (audio_run 0 30 100 10).2 = 3 ∧ (audio_run 50 30 100 10).2 ≤ 10 * 30 / 100 + 1 := by
  have h := claim_C8_audio_rate 30 100 (by norm_num) (by norm_num) (by norm_num) 10
  exact ⟨h.1.trans (by norm_num), (h.2 50 (by norm_num)).2⟩

/-! ### GT1 parser claims -/

lemma gt1_count_none_of_truncated (data : List Nat) :
    ∀ (fuel offset : Nat), data.length ≤ offset + fuel →
      gt1_truncated data offset = true → gt1_count data offset = none := by
  intro fuel
  induction fuel with
  | zero =>
      intro offset hf h
      unfold gt1_truncated at h
      rw [dif_neg (by omega)] at h
      exact absurd h (by simp)
  | succ n ih =>
      intro offset hf h
      unfold gt1_truncated at h
      unfold gt1_count
      by_cases hoff : offset < data.length
      · rw [dif_pos hoff] at h
        rw [dif_pos hoff]
        by_cases hterm : data.getD offset 0 = 0 ∧ 0 < offset
        · rw [if_pos hterm] at h
          exact absurd h (by simp)
        · rw [if_neg hterm] at h
          rw [if_neg hterm]
          by_cases hhdr : data.length < offset + 3
          · rw [if_pos hhdr]
          · rw [if_neg hhdr] at h
            rw [if_neg hhdr]
            dsimp only at h ⊢
            by_cases hseg : data.length < offset + 3 +
                (if data.getD (offset + 2) 0 = 0 then 256 else data.getD (offset + 2) 0)
            · rw [if_pos hseg]
            · rw [if_neg hseg] at h
              rw [if_neg hseg]
              rw [ih _ (by omega) h]
              rfl
      · rw [dif_neg hoff] at h
        exact absurd h (by simp)

/-- C9: loader_parse_gt1 returns NULL (none) on every buffer in which some
declared segment header or payload extends past the end of the buffer; no
partially parsed GT1 structure is returned in that case. -/
theorem claim_C9_parse_truncated (data : List Nat)
    (h : gt1_truncated data 0 = true) :
    loader_parse_gt1 data = none := by
  unfold loader_parse_gt1
  by_cases hlen : data.length < 3
  · rw [if_pos hlen]
  · rw [if_neg hlen]
    rw [gt1_count_none_of_truncated data data.length 0 (by omega) h]

/-- Witness for C9: a buffer declaring a 5-byte payload but holding only
one payload byte is truncated and parses to none. -/
theorem claim_C9_parse_truncated_witness :
    gt1_truncated [2, 0, 5, 170] 0 = true ∧
      loader_parse_gt1 [2, 0, 5, 170] = none := by
  have ht : gt1_truncated [2, 0, 5, 170] 0 = true := by
    rw [gt1_truncated]
    norm_num
  exact ⟨ht, claim_C9_parse_truncated _ ht⟩

/-- C10: gigatron_tick called on a NULL cpu pointer or on a cpu whose rom
was never allocated returns without changing any state. -/
theorem claim_C10_null_tick (cpu : gigatron_t) (h : cpu.rom = none) :
    gigatron_tick cpu = cpu ∧ gigatron_tick_ptr none = none := by
  constructor
  · simp [gigatron_tick, h]
  · rfl

/-- Witness for C10 on the reset state with the rom freed. -/
theorem claim_C10_null_tick_witness :
    gigatron_tick cpu_norom = cpu_norom ∧ gigatron_tick_ptr none = none :=
  claim_C10_null_tick cpu_norom rfl

/-! ### Loader frame checksum claim -/

lemma neg8_lt (x : Nat) : neg8 x < 256 := by
  unfold neg8
  omega

set_option maxRecDepth 8192 in
lemma or_even_bit : ∀ y : Nat, y < 256 → y % 2 = 0 → ∀ b : Nat, b < 2 →
    y ||| b = y + b := by decide

lemma shl1_mask (x : Nat) : (x <<< 1) &&& 255 = (2 * x) % 256 := by
  have h1 : x <<< 1 = x * 2 := by rw [Nat.shiftLeft_eq]
  have h2 : (255 : Nat) = 2 ^ 8 - 1 := by norm_num
  rw [h1, h2, Nat.and_pow_two_sub_one_eq_mod, Nat.mul_comm]

set_option maxRecDepth 8192 in
lemma shift_bit_val : ∀ c : Nat, c < 256 →
    (if c &&& 128 ≠ 0 then (1 : Nat) else 0) = c / 128 := by decide

lemma frame_inv_shift_other (c0 f l a : Nat) (p : Nat → Nat) (st : loader_frame_t)
    (h : frame_inv c0 f l a p st) (hnc : st.frame_state ≠ .FRAME_SEND_CHECKSUM)
    (hnd : st.frame_state ≠ .FRAME_DONE) :
    frame_inv c0 f l a p (shift_step st) := by
  obtain ⟨hf, hl, ha, hp, hrest⟩ := h
  refine ⟨hf, hl, ha, hp, ?_⟩
  have hfs : (shift_step st).frame_state = st.frame_state := rfl
  rw [hfs]
  cases hst : st.frame_state <;> rw [hst] at hrest <;>
    first
      | exact hrest.elim
      | exact hrest
      | exact (hnc hst).elim
      | exact (hnd hst).elim

lemma frame_inv_shift_checksum (c0 f l a : Nat) (p : Nat → Nat)
    (st : loader_frame_t) (h : frame_inv c0 f l a p st)
    (hc : st.frame_state = .FRAME_SEND_CHECKSUM) (hb : 0 < st.bits_remaining) :
    frame_inv c0 f l a p (shift_step st) := by
  obtain ⟨hf, hl, ha, hp, hrest⟩ := h
  rw [hc] at hrest
  dsimp only at hrest
  obtain ⟨hcs, hbr, hcb, hin, hin2⟩ := hrest
  refine ⟨hf, hl, ha, hp, ?_⟩
  have hfs : (shift_step st).frame_state = st.frame_state := rfl
  rw [hfs, hc]
  dsimp only
  have hT : frame_checksum_target c0 f l a p < 256 := neg8_lt _
  have hcblt : st.current_byte < 256 := by
    rw [hcb]
    exact Nat.mod_lt _ (by norm_num)
  have hcb2 : (shift_step st).current_byte = (2 * st.current_byte) % 256 := by
    simp [shift_step, shift_bit, Nat.shiftLeft_eq, Nat.mul_comm]
  have hbr2 : (shift_step st).bits_remaining = st.bits_remaining - 1 := rfl
  have hbit : (if st.current_byte &&& 128 ≠ 0 then (1 : Nat) else 0) =
      st.current_byte / 128 := shift_bit_val _ hcblt
  have hin3 : (shift_step st).in_reg =
      (2 * st.in_reg) % 256 + st.current_byte / 128 := by
    simp only [shift_step, shift_bit]
    rw [shl1_mask]
    rw [or_even_bit _ (Nat.mod_lt _ (by norm_num)) (by omega) _ (by split <;> omega)]
    simp [hbit]
  have hin4 : (shift_step st).in_reg < 256 := by
    rw [hin3]
    have := Nat.mod_lt (2 * st.in_reg) (y := 256) (by norm_num)
    omega
  refine ⟨hcs, by omega, ?_, ?_⟩
  rotate_left
  refine ⟨?_, hin4⟩
  · rw [hin3, hbr2]
    rw [hcb] at hbit ⊢
    set T := frame_checksum_target c0 f l a p with hTdef
    set r := st.bits_remaining with hrdef
    interval_cases r <;> omega
  · rw [hcb2, hbr2, hcb]
    set T := frame_checksum_target c0 f l a p with hTdef
    set r := st.bits_remaining with hrdef
    interval_cases r <;> omega

lemma neg8_mod (y : Nat) : neg8 (y % 256) = neg8 y := by
  unfold neg8
  omega

lemma frame_inv_step (c0 f l a : Nat) (p : Nat → Nat) (st : loader_frame_t)
    (vneg hpos : Bool) (hinv : frame_inv c0 f l a p st) :
    frame_inv c0 f l a p (process_frame st vneg hpos).1 := by
  obtain ⟨hf, hl, ha, hp, hrest⟩ := hinv
  unfold process_frame
  cases hst : st.frame_state <;> (try rw [hst] at hrest) <;>
    (try dsimp only at hrest ⊢)
  case FRAME_WAIT_HSYNC_2 =>
    cases hpos
    · rw [if_neg Bool.false_ne_true]
      exact ⟨hf, hl, ha, hp, by rw [hst]; exact hrest⟩
    · rw [if_pos rfl]
      refine ⟨?_, ?_, ?_, ?_, ?_⟩ <;>
        simp [start_bits, shift_step, shift_bit, hf, hl, ha, hp, hrest]
  case FRAME_SEND_FIRST_BYTE =>
    cases hpos
    · rw [if_neg Bool.false_ne_true]
      exact ⟨hf, hl, ha, hp, by rw [hst]; exact hrest⟩
    · rw [if_pos rfl]
      by_cases hb : 0 < st.bits_remaining
      · rw [if_pos hb]
        exact frame_inv_shift_other c0 f l a p st
          ⟨hf, hl, ha, hp, by rw [hst]; exact hrest⟩
          (by rw [hst]; simp) (by rw [hst]; simp)
      · rw [if_neg hb]
        refine ⟨?_, ?_, ?_, ?_, ?_⟩ <;>
          simp [start_bits, shift_step, shift_bit, Nat.shiftLeft_eq,
            hf, hl, ha, hp, hrest]
  case FRAME_SEND_LENGTH =>
    cases hpos
    · rw [if_neg Bool.false_ne_true]
      exact ⟨hf, hl, ha, hp, by rw [hst]; exact hrest⟩
    · rw [if_pos rfl]
      by_cases hb : 0 < st.bits_remaining
      · rw [if_pos hb]
        exact frame_inv_shift_other c0 f l a p st
          ⟨hf, hl, ha, hp, by rw [hst]; exact hrest⟩
          (by rw [hst]; simp) (by rw [hst]; simp)
      · rw [if_neg hb]
        refine ⟨?_, ?_, ?_, ?_, ?_⟩ <;>
          simp [start_bits, shift_step, shift_bit, Nat.shiftLeft_eq,
            hf, hl, ha, hp, hrest]
  case FRAME_SEND_ADDR_LOW =>
    cases hpos
    · rw [if_neg Bool.false_ne_true]
      exact ⟨hf, hl, ha, hp, by rw [hst]; exact hrest⟩
    · rw [if_pos rfl]
      by_cases hb : 0 < st.bits_remaining
      · rw [if_pos hb]
        exact frame_inv_shift_other c0 f l a p st
          ⟨hf, hl, ha, hp, by rw [hst]; exact hrest⟩
          (by rw [hst]; simp) (by rw [hst]; simp)
      · rw [if_neg hb]
        refine ⟨?_, ?_, ?_, ?_, ?_⟩ <;>
          simp [start_bits, shift_step, shift_bit, Nat.shiftLeft_eq,
            hf, hl, ha, hp, hrest]
  case FRAME_SEND_ADDR_HIGH =>
    cases hpos
    · rw [if_neg Bool.false_ne_true]
      exact ⟨hf, hl, ha, hp, by rw [hst]; exact hrest⟩
    · rw [if_pos rfl]
      by_cases hb : 0 < st.bits_remaining
      · rw [if_pos hb]
        exact frame_inv_shift_other c0 f l a p st
          ⟨hf, hl, ha, hp, by rw [hst]; exact hrest⟩
          (by rw [hst]; simp) (by rw [hst]; simp)
      · rw [if_neg hb]
        refine ⟨?_, ?_, ?_, ?_, ?_⟩ <;>
          simp [start_bits, shift_step, shift_bit, psum, Nat.shiftLeft_eq,
            hf, hl, ha, hp, hrest]
  case FRAME_SEND_PAYLOAD =>
    obtain ⟨hpi, hcs⟩ := hrest
    cases hpos
    · rw [if_neg Bool.false_ne_true]
      exact ⟨hf, hl, ha, hp, by rw [hst]; exact ⟨hpi, hcs⟩⟩
    · rw [if_pos rfl]
      by_cases hb : 0 < st.bits_remaining
      · rw [if_pos hb]
        exact frame_inv_shift_other c0 f l a p st
          ⟨hf, hl, ha, hp, by rw [hst]; exact ⟨hpi, hcs⟩⟩
          (by rw [hst]; simp) (by rw [hst]; simp)
      · rw [if_neg hb]
        have hmod : (st.payload_index + 1) % 256 = st.payload_index + 1 :=
          Nat.mod_eq_of_lt (by omega)
        by_cases h60 : 60 ≤ (st.payload_index + 1) % 256
        · rw [if_pos h60]
          have h59 : st.payload_index = 59 := by omega
          rw [h59] at hcs
          have hT : frame_checksum_target c0 f l a p < 256 := neg8_lt _
          have hTeq : neg8 st.checksum = frame_checksum_target c0 f l a p := by
            rw [hcs, neg8_mod]
            rfl
          refine ⟨?_, ?_, ?_, ?_, ?_⟩ <;>
            simp only [start_bits, shift_step, shift_bit]
          · exact hf
          · exact hl
          · exact ha
          · exact hp
          dsimp only
          rw [hTeq]
          set T := frame_checksum_target c0 f l a p with hTdef
          have hTm : T % 256 = T := Nat.mod_eq_of_lt hT
          refine ⟨rfl, by norm_num, ?_, ?_, ?_⟩
          · rw [hTm]
            norm_num [Nat.shiftLeft_eq, Nat.mul_comm]
          · rw [hTm]
            rw [shl1_mask]
            rw [or_even_bit _ (Nat.mod_lt _ (by norm_num)) (by omega) _
              (by split <;> omega)]
            simp only [decide_eq_true_eq]
            rw [shift_bit_val _ hT]
            norm_num
            omega
          · rw [hTm, shl1_mask]
            rw [or_even_bit _ (Nat.mod_lt _ (by norm_num)) (by omega) _
              (by split <;> omega)]
            have := Nat.mod_lt (2 * st.in_reg) (y := 256) (by norm_num)
            split <;> omega
        · rw [if_neg h60]
          rw [hmod] at h60 ⊢
          refine ⟨?_, ?_, ?_, ?_, ?_⟩ <;>
            simp only [start_bits, shift_step, shift_bit]
          · exact hf
          · exact hl
          · exact ha
          · exact hp
          refine ⟨by omega, ?_⟩
          rw [hp, hcs]
          simp [psum]
          omega
  case FRAME_SEND_CHECKSUM =>
    cases hpos
    · rw [if_neg Bool.false_ne_true]
      exact ⟨hf, hl, ha, hp, by rw [hst]; exact hrest⟩
    · rw [if_pos rfl]
      by_cases hb : 0 < st.bits_remaining
      · rw [if_pos hb]
        exact frame_inv_shift_checksum c0 f l a p st
          ⟨hf, hl, ha, hp, by rw [hst]; exact hrest⟩ hst hb
      · rw [if_neg hb]
        obtain ⟨hcs, hbr, hcb, hin, hin2⟩ := hrest
        have hb0 : st.bits_remaining = 0 := by omega
        rw [hb0] at hin
        norm_num at hin
        exact ⟨hf, hl, ha, hp, hcs, by dsimp only; omega⟩
  case FRAME_DONE =>
    exact ⟨hf, hl, ha, hp, by rw [hst]; exact hrest⟩

lemma frame_inv_run (c0 f l a : Nat) (p : Nat → Nat) :
    ∀ (L : List (Bool × Bool)) (st : loader_frame_t),
      frame_inv c0 f l a p st → frame_inv c0 f l a p (frame_run st L) := by
  intro L
  induction L with
  | nil => intro st h; exact h
  | cons i rest ih =>
      intro st h
      exact ih _ (frame_inv_step c0 f l a p st i.1 i.2 h)

/-- C3: if the running checksum is c0 when the frame state machine is
about to send the first byte, then whenever the frame completes, the
retained running checksum equals the negated byte sum of c0, first byte,
first byte times 64, length, both address bytes and all 60 payload bytes,
the same value was the byte shifted out during the checksum phase (it is
what the IN register holds at completion), and the checksum byte itself
was never added to the running checksum. -/
theorem claim_C3_frame_checksum (st0 : loader_frame_t)
    (hstart : st0.frame_state = .FRAME_WAIT_HSYNC_2)
    (L : List (Bool × Bool))
    (hdone : (frame_run st0 L).frame_state = .FRAME_DONE) :
    (frame_run st0 L).checksum =
      frame_checksum_target st0.checksum st0.frame_first_byte st0.frame_length
        st0.frame_addr st0.frame_payload ∧
    (frame_run st0 L).in_reg =
      frame_checksum_target st0.checksum st0.frame_first_byte st0.frame_length
        st0.frame_addr st0.frame_payload := by
  have h0 : frame_inv st0.checksum st0.frame_first_byte st0.frame_length
      st0.frame_addr st0.frame_payload st0 := by
    refine ⟨rfl, rfl, rfl, rfl, ?_⟩
    rw [hstart]
  have h := frame_inv_run _ _ _ _ _ L st0 h0
  obtain ⟨-, -, -, -, harm⟩ := h
  rw [hdone] at harm
  exact harm

set_option maxRecDepth 100000 in
/-- Witness for C3: the sync frame (first byte 0xFF, length 0, address 0,
zero payload) sent from checksum 0 completes after 520 hsync rising edges
and leaves checksum 65 both in the accumulator and in the IN register. -/
theorem claim_C3_frame_checksum_witness :
    (frame_run frame0 (List.replicate 520 (false, true))).checksum = 65 ∧
    (frame_run frame0 (List.replicate 520 (false, true))).in_reg = 65 := by
  have hdone : (frame_run frame0 (List.replicate 520 (false, true))).frame_state =
      .FRAME_DONE := by decide
  have h := claim_C3_frame_checksum frame0 rfl (List.replicate 520 (false, true)) hdone
  refine ⟨h.1.trans ?_, h.2.trans ?_⟩ <;> decide

end Gigatron
